import Mathlib

/-!
Verification of the sentiment-aggregation core of the
Financial-Sentiment-Analyst-Agent repository
(`financial_agent/analyzer.py`).

The analyzer is shallowly embedded: the external text-generation call is
a parameter of type `Except String String` (an exception or the reply
text), timestamps are parameters, machine floats are modelled by `ℚ`,
Python dictionaries by insertion-ordered association lists, and
`json.loads` by an executable JSON parser over a `Json` value type.
-/

set_option maxRecDepth 100000

namespace FinAgent

/-! ## Python string primitives used by the analyzer -/

/-- The characters `str.strip()` removes: space, tab, LF, CR, VT, FF. -/
def pyWhitespace (c : Char) : Bool :=
  c = ' ' || c = '\t' || c = '\n' || c = '\r' || c = Char.ofNat 11 || c = Char.ofNat 12

/-- Model of `str.strip()` on a character list. -/
def pyStripL (l : List Char) : List Char :=
  ((l.dropWhile pyWhitespace).reverse.dropWhile pyWhitespace).reverse

/-- Model of `str.strip()`. -/
def pyStrip (s : String) : String :=
  (pyStripL s.toList).asString

/-- ASCII model of `str.title()`: a letter is uppercased when the previous
character is not a letter, lowercased otherwise. -/
def pyTitleL : Bool → List Char → List Char
  | _, [] => []
  | prevAlpha, c :: rest =>
    if c.isAlpha then
      (if prevAlpha then c.toLower else c.toUpper) :: pyTitleL true rest
    else
      c :: pyTitleL false rest

/-- Model of `str.title()`. -/
def pyTitle (s : String) : String :=
  (pyTitleL false s.toList).asString

/-- Model of `str.find(sub)` from a given offset: first index `≥ i` where `sub`
occurs, `-1` when absent (candidate indices counted from `i`). -/
def pyFindAux (sub : List Char) : List Char → Nat → Int
  | l, i =>
    if sub.isPrefixOf l then (i : Int)
    else match l with
      | [] => -1
      | _ :: t => pyFindAux sub t (i + 1)

/-- Model of `str.find(sub)`. -/
def pyFind (l sub : List Char) : Int :=
  pyFindAux sub l 0

/-- Model of `str.find(sub, start)` (with `0 ≤ start ≤ len`). -/
def pyFindFrom (l sub : List Char) (start : Nat) : Int :=
  pyFindAux sub (l.drop start) start

/-- Model of `str.find(ch)` for a single character. -/
def pyFindChar (l : List Char) (c : Char) : Int :=
  pyFind l [c]

/-- Model of `str.rfind(ch)` for a single character: last index, `-1` when absent. -/
def pyRFindChar (l : List Char) (c : Char) : Int :=
  match l with
  | [] => -1
  | x :: t =>
    let r := pyRFindChar t c
    if r ≥ 0 then r + 1 else if x = c then 0 else -1

/-- Clamp a Python slice endpoint to `[0, n]`, resolving negatives. -/
def pySliceIdx (n : Nat) (i : Int) : Nat :=
  if i < 0 then (max (i + n) 0).toNat else min i.toNat n

/-- Python slice `l[a:b]` with possibly-negative endpoints. -/
def pySlice (l : List Char) (a b : Int) : List Char :=
  let n := l.length
  (l.take (pySliceIdx n b)).drop (pySliceIdx n a)

/-! ## JSON values and a model of `json.loads` -/

/-- JSON values; numbers are exact rationals. -/
inductive Json where
  | null : Json
  | bool : Bool → Json
  | num : ℚ → Json
  | str : String → Json
  | arr : List Json → Json
  | obj : List (String × Json) → Json

/-- Insertion-ordered association-list lookup (Python dict access). -/
def alookup {α : Type} (k : String) : List (String × α) → Option α
  | [] => none
  | (k', v) :: rest => if k' = k then some v else alookup k rest

/-- Python dict insertion: a repeated key keeps its position but takes the
new value (`json.loads` keeps the last duplicate). -/
def dinsert (k : String) (v : Json) : List (String × Json) → List (String × Json)
  | [] => [(k, v)]
  | (k', v') :: rest => if k' = k then (k', v) :: rest else (k', v') :: dinsert k v rest

/-- Python truthiness of a decoded JSON value. -/
def Json.truthy : Json → Bool
  | .null => false
  | .bool b => b
  | .num q => q ≠ 0
  | .str s => s ≠ ""
  | .arr l => !l.isEmpty
  | .obj l => !l.isEmpty

/-- Dict field access that models `d[k]` succeeding only on dicts. -/
def Json.get? : Json → String → Option Json
  | .obj fields, k => alookup k fields
  | _, _ => none

def jsonWs (c : Char) : Bool :=
  c = ' ' || c = '\t' || c = '\n' || c = '\r'

def skipWs (l : List Char) : List Char :=
  l.dropWhile jsonWs

def hexDigit? (c : Char) : Option Nat :=
  let n := c.toNat
  if 48 ≤ n ∧ n ≤ 57 then some (n - 48)
  else if 97 ≤ n ∧ n ≤ 102 then some (n - 87)
  else if 65 ≤ n ∧ n ≤ 70 then some (n - 55)
  else none

/-- JSON string body after the opening quote: returns the decoded content
and the input after the closing quote. Strict mode: raw control characters
are rejected. Fuelled (callers pass at least the input length plus one, so
the fuel never runs out on the way to the closing quote). -/
def jstring : Nat → List Char → Option (List Char × List Char)
  | 0, _ => none
  | _, [] => none
  | fuel + 1, c :: rest =>
    if c = '"' then some ([], rest)
    else if c = '\\' then
      match rest with
      | [] => none
      | e :: rest' =>
        let simpleEsc : Option Char :=
          if e = '"' then some '"'
          else if e = '\\' then some '\\'
          else if e = '/' then some '/'
          else if e = 'b' then some (Char.ofNat 8)
          else if e = 'f' then some (Char.ofNat 12)
          else if e = 'n' then some '\n'
          else if e = 'r' then some '\r'
          else if e = 't' then some '\t'
          else none
        match simpleEsc with
        | some ch =>
          match jstring fuel rest' with
          | some (cs, r) => some (ch :: cs, r)
          | none => none
        | none =>
          if e = 'u' then
            match rest' with
            | a :: b :: c2 :: d :: rest'' =>
              match hexDigit? a, hexDigit? b, hexDigit? c2, hexDigit? d with
              | some ha, some hb, some hc, some hd =>
                let code := ((ha * 16 + hb) * 16 + hc) * 16 + hd
                match jstring fuel rest'' with
                | some (cs, r) => some (Char.ofNat code :: cs, r)
                | none => none
              | _, _, _, _ => none
            | _ => none
          else none
    else if c.toNat < 32 then none
    else
      match jstring fuel rest with
      | some (cs, r) => some (c :: cs, r)
      | none => none

def digitsToNat (ds : List Char) : Nat :=
  ds.foldl (fun acc c => 10 * acc + (c.toNat - 48)) 0

/-- JSON number grammar: `-? int frac? exp?` with `int = 0 | [1-9][0-9]*`. -/
def jnumber (l : List Char) : Option (ℚ × List Char) :=
  let isNeg : Bool := l.head? = some '-'
  let sign : ℚ := if isNeg then -1 else 1
  let l₁ := if isNeg then l.tail else l
  let (intDs, l₂) := l₁.span Char.isDigit
  match intDs with
  | [] => none
  | d0 :: drest =>
    if d0 = '0' ∧ drest ≠ [] then none
    else
      let (fracDs, l₃) :=
        match l₂ with
        | '.' :: r => r.span Char.isDigit
        | _ => ([], l₂)
      let hadDot := l₂.length ≠ l₃.length + fracDs.length
      if hadDot ∧ fracDs = [] then none
      else
        let (expVal, l₄) : Option Int × List Char :=
          match l₃ with
          | 'e' :: r | 'E' :: r =>
            let esign : Int := if r.head? = some '-' then -1 else 1
            let signed : Bool := r.head? = some '-' ∨ r.head? = some '+'
            let (expDs, r₂) := (if signed then r.tail else r).span Char.isDigit
            if expDs = [] then (none, l₃)
            else (some (esign * (digitsToNat expDs : Int)), r₂)
          | _ => (some 0, l₃)
        match expVal with
        | none => none
        | some e =>
          let mantissa : ℚ :=
            (digitsToNat intDs : ℚ) + (digitsToNat fracDs : ℚ) / ((10 : ℚ) ^ fracDs.length)
          let scaled : ℚ :=
            if e ≥ 0 then mantissa * (10 : ℚ) ^ e.toNat else mantissa / ((10 : ℚ) ^ (-e).toNat)
          some (sign * scaled, l₄)

mutual

/-- Fueled JSON value parser (the fuel is an over-approximation of the
recursion depth; `jsonParse` supplies enough for any input). -/
def jvalue : Nat → List Char → Option (Json × List Char)
  | 0, _ => none
  | fuel + 1, l =>
    let t := skipWs l
    if "null".toList.isPrefixOf t then some (.null, t.drop 4)
    else if "true".toList.isPrefixOf t then some (.bool true, t.drop 4)
    else if "false".toList.isPrefixOf t then some (.bool false, t.drop 5)
    else
      match t with
      | '"' :: r =>
        match jstring (r.length + 1) r with
        | some (cs, r') => some (.str cs.asString, r')
        | none => none
      | c :: r =>
        if c = Char.ofNat 91 then jarray fuel (skipWs r)
        else if c = Char.ofNat 123 then jobject fuel (skipWs r)
        else if c = '-' ∨ c.isDigit then
          match jnumber (c :: r) with
          | some (q, r') => some (.num q, r')
          | none => none
        else none
      | [] => none

/-- After `[`: empty array or first element onward. -/
def jarray : Nat → List Char → Option (Json × List Char)
  | 0, _ => none
  | fuel + 1, l =>
    match l with
    | c :: r =>
      if c = Char.ofNat 93 then some (.arr [], r)
      else
        match jvalue fuel l with
        | some (v, r') => jarrayRest fuel [v] (skipWs r')
        | none => none
    | [] => none

/-- After an array element: `,` and another element, or `]`. -/
def jarrayRest : Nat → List Json → List Char → Option (Json × List Char)
  | 0, _, _ => none
  | fuel + 1, acc, l =>
    match l with
    | c :: r =>
      if c = Char.ofNat 93 then some (.arr acc.reverse, r)
      else if c = ',' then
        match jvalue fuel r with
        | some (v, r') => jarrayRest fuel (v :: acc) (skipWs r')
        | none => none
      else none
    | [] => none

/-- After `\x7b`: empty object or first member onward. -/
def jobject : Nat → List Char → Option (Json × List Char)
  | 0, _ => none
  | fuel + 1, l =>
    match l with
    | c :: r =>
      if c = Char.ofNat 125 then some (.obj [], r)
      else jmember fuel [] l
    | [] => none

/-- One `"key": value` member starting at the key's quote. -/
def jmember : Nat → List (String × Json) → List Char → Option (Json × List Char)
  | 0, _, _ => none
  | fuel + 1, acc, l =>
    match l with
    | '"' :: r =>
      match jstring (r.length + 1) r with
      | some (kcs, r₁) =>
        match skipWs r₁ with
        | ':' :: r₂ =>
          match jvalue fuel r₂ with
          | some (v, r₃) => jobjectRest fuel (dinsert kcs.asString v acc) (skipWs r₃)
          | none => none
        | _ => none
      | none => none
    | _ => none

/-- After an object member: `,` and another member, or `\x7d`. -/
def jobjectRest : Nat → List (String × Json) → List Char → Option (Json × List Char)
  | 0, _, _ => none
  | fuel + 1, acc, l =>
    match l with
    | c :: r =>
      if c = Char.ofNat 125 then some (.obj acc, r)
      else if c = ',' then jmember fuel acc (skipWs r)
      else none
    | [] => none

end

/-- Model of `json.loads`: parse one value, reject trailing content. -/
def jsonParse (s : String) : Option Json :=
  let l := s.toList
  match jvalue (3 * l.length + 16) l with
  | some (v, rest) => if skipWs rest = [] then some v else none
  | none => none

/-! ## Data model (`analyzer.py` dataclasses) -/

/-- One raw article (`article.get` defaults applied). -/
structure Article where
  title : String := ""
  description : String := ""
  content : String := ""
  source : String := "Unknown"

/-- The `SentimentResult` dataclass. Python does not enforce the `float`
annotation on `confidence`, so the field holds whatever JSON value the
service supplied (default `0.8`). -/
structure SentimentResult where
  sentiment : String
  reasoning : String
  confidence : Json
  article_title : String
  article_source : String

/-- The `SentimentReport` dataclass. `bull_case`/`bear_case` hold whatever
value the narrative reply carried (a JSON array of strings on the happy
path), exactly as the untyped Python fields do. -/
structure SentimentReport where
  overall_sentiment : String
  sentiment_breakdown : List (String × Nat)
  sentiment_percentages : List (String × ℚ)
  bull_case : Json
  bear_case : Json
  total_articles : Nat
  analyzed_articles : Nat
  analysis_timestamp : String

/-- A JSON array of strings (a decoded Python `list[str]`). -/
def strList (l : List String) : Json :=
  .arr (l.map .str)

/-! ## Classifier (`_parse_sentiment_response`, `analyze_article_sentiment`) -/

/-- The block-extraction step of `_parse_sentiment_response` /
`_parse_bull_bear_response`, applied to the stripped reply: a fenced
` ```json ` block is looked for first; failing that, the substring from
the first `\x7b` to the last `\x7d`. -/
def extractJsonBlock (cleaned : String) : Option String :=
  let l := cleaned.toList
  if pyFind l "```json".toList ≥ 0 then
    let a : Int := pyFind l "```json".toList + 7
    let b : Int := pyFindFrom l "```".toList a.toNat
    some (pyStripL (pySlice l a b)).asString
  else if l.contains (Char.ofNat 123) ∧ l.contains (Char.ofNat 125) then
    let a : Int := pyFindChar l (Char.ofNat 123)
    let b : Int := pyRFindChar l (Char.ofNat 125) + 1
    some (pySlice l a b).asString
  else none

/-- The validated payload of a classification reply. -/
structure ParsedSentiment where
  sentiment : String
  reasoning : String
  confidence : Json

/-- The field-validation step of `_parse_sentiment_response` on the decoded
JSON: required keys must be present, `sentiment`/`reasoning` must be
strings (a non-string raises `AttributeError` at `.strip()`, caught and
converted to `None`), the stripped+title-cased label must be one of the
three admissible values, and `confidence` defaults to `0.8`. Non-dict
data always yields `None` (missing-key return or a caught `TypeError`). -/
def validateSentimentData : Json → Option ParsedSentiment
  | .obj fields =>
    match alookup "sentiment" fields, alookup "reasoning" fields with
    | some sv, some rv =>
      match sv, rv with
      | .str s, .str r =>
        let s' := pyTitle (pyStrip s)
        if s' = "Positive" ∨ s' = "Negative" ∨ s' = "Neutral" then
          some ⟨s', pyStrip r, (alookup "confidence" fields).getD (.num (4/5))⟩
        else none
      | _, _ => none
    | _, _ => none
  | _ => none

/-- Model of `_parse_sentiment_response`: strip, extract the JSON block, decode,
validate; any failure yields `None`. -/
def parseSentimentResponse (t : String) : Option ParsedSentiment :=
  (extractJsonBlock (pyStrip t)).bind fun block =>
    (jsonParse block).bind fun d => validateSentimentData d

/-- Model of `analyze_article_sentiment`. The external `generate_content` call is
the `gen` parameter: `.error` models an exception (caught, → `None`),
`.ok ""` models a falsy `response.text`. -/
def analyzeArticleSentiment (gen : Except String String) (article : Article) :
    Option SentimentResult :=
  match gen with
  | .error _ => none
  | .ok reply =>
    if reply = "" then none
    else
      (parseSentimentResponse reply).map fun d =>
        ⟨d.sentiment, d.reasoning, d.confidence, article.title, article.source⟩

/-! ## Report synthesizer -/

/-- Python `s[:100]`. -/
def trunc100 (s : String) : String :=
  (s.toList.take 100).asString

/-- Model of `_create_default_bull_bear_cases`: walk the judgments in order, route
Positive reasonings (prefixed, truncated to 100 chars, `...`-suffixed) to
the bull list and Negative ones to the bear list, insert a placeholder
into an empty list, and cap both at 5. -/
def createDefaultBullBearCases (results : List SentimentResult) : Json × Json :=
  let bull0 := (results.filter (fun r => r.sentiment = "Positive")).map
    (fun r => "• " ++ trunc100 r.reasoning ++ "...")
  let bear0 := (results.filter (fun r => r.sentiment = "Negative")).map
    (fun r => "• " ++ trunc100 r.reasoning ++ "...")
  let bull := if bull0 = [] then ["• Positive market sentiment detected in recent news"] else bull0
  let bear := if bear0 = [] then ["• Some concerns identified in recent coverage"] else bear0
  (strList (bull.take 5), strList (bear.take 5))

/-- Model of `_parse_bull_bear_response`: same extraction, decode only (no schema
validation); any failure yields `None`. -/
def parseBullBearResponse (t : String) : Option Json :=
  (extractJsonBlock (pyStrip t)).bind jsonParse

/-- Model of `_generate_bull_bear_cases`: call the service (one `gen` outcome);
on exception, falsy reply, undecodable reply, falsy decoded data, or a
missing/ill-typed index access (`KeyError`/`TypeError`, caught by the
enclosing `try`), fall back to the deterministic cases; otherwise return
the decoded `bull_case`/`bear_case` values verbatim. -/
def generateBullBearCases (gen : Except String String)
    (results : List SentimentResult) (company : String) : Json × Json :=
  match gen with
  | .error _ => createDefaultBullBearCases results
  | .ok reply =>
    if reply = "" then createDefaultBullBearCases results
    else
      match parseBullBearResponse reply with
      | none => createDefaultBullBearCases results
      | some data =>
        if data.truthy then
          match data.get? "bull_case", data.get? "bear_case" with
          | some b, some r => (b, r)
          | _, _ => createDefaultBullBearCases results
        else createDefaultBullBearCases results

/-- One step of `collections.Counter`: first occurrence appends a key at
the end, later occurrences increment it in place. -/
def bump : List (String × Nat) → String → List (String × Nat)
  | [], s => [(s, 1)]
  | (k, c) :: rest, s =>
    if k = s then (k, c + 1) :: rest else (k, c) :: bump rest s

/-- Model of `Counter(sentiments)` as an insertion-ordered association list. -/
def tally (l : List String) : List (String × Nat) :=
  l.foldl bump []

/-- The percentage comprehension of `generate_final_report`. -/
def sentimentPercentages (counts : List (String × Nat)) (total : Nat) :
    List (String × ℚ) :=
  counts.map (fun p => (p.1, (p.2 : ℚ) / (total : ℚ) * 100))

/-- Python `max(items, key=lambda x: x[1])`: the first item attaining the
maximum value; `None` models the `ValueError` on an empty sequence. -/
def firstMax : List (String × ℚ) → Option (String × ℚ)
  | [] => none
  | x :: rest => some (rest.foldl (fun m y => if y.2 > m.2 then y else m) x)

/-- Model of `_determine_overall_sentiment`: the top label, overridden to Neutral
when its percentage is strictly below 40. -/
def determineOverallSentiment (percs : List (String × ℚ)) : Option String :=
  (firstMax percs).map (fun m => if m.2 < 40 then "Neutral" else m.1)

/-- Model of `_create_empty_report` (timestamp is a parameter). -/
def createEmptyReport (ts : String) : SentimentReport :=
  ⟨"Neutral", [("Neutral", 0)], [("Neutral", 100)],
    strList ["• No recent news available for analysis"],
    strList ["• No recent news available for analysis"],
    0, 0, ts⟩

/-- Model of `generate_final_report`: empty input yields the canonical empty
report; otherwise tally, percentages, threshold rule, narrative cases.
The `none` branch of `determineOverallSentiment` models the only
exception site of the body (`max()` on an empty sequence), which the
outer `try` converts to the empty report. -/
def generateFinalReport (gen : Except String String)
    (results : List SentimentResult) (company ts : String) : SentimentReport :=
  match results with
  | [] => createEmptyReport ts
  | _ :: _ =>
    let sentiments := results.map (fun r => r.sentiment)
    let counts := tally sentiments
    let total := results.length
    let percs := sentimentPercentages counts total
    match determineOverallSentiment percs with
    | none => createEmptyReport ts
    | some overall =>
      let bb := generateBullBearCases gen results company
      ⟨overall, counts, percs, bb.1, bb.2, total, results.length, ts⟩

/-! ## Rate limiter (`_rate_limit`) -/

/-- The source constant `self.min_request_interval = 5.0`. -/
def minRequestInterval : ℚ := 5

/-- Model of `_rate_limit` under an idealized clock: given the stored
`last_request_time` and the current time, return the wall-clock time at
which the function returns (the external call's start) and the new
`last_request_time` (taken after the sleep). -/
def rateLimit (minInterval lastRequestTime now : ℚ) : ℚ × ℚ :=
  let timeSinceLast := now - lastRequestTime
  if timeSinceLast < minInterval then
    let sleepTime := minInterval - timeSinceLast
    (now + sleepTime, now + sleepTime)
  else (now, now)

/-! ## Derived notions used in the statements -/

/-- Length of a decoded case list (`None` when the value is not a list). -/
def caseLen : Json → Option Nat
  | .arr l => some l.length
  | _ => none

/-- A case list with between 1 and 5 entries. -/
def caseLenBounds (j : Json) : Prop :=
  ∃ n, caseLen j = some n ∧ 1 ≤ n ∧ n ≤ 5

/-- A confidence value lying in the unit interval. -/
def confidenceInUnit (j : Json) : Prop :=
  ∃ q : ℚ, j = Json.num q ∧ 0 ≤ q ∧ q ≤ 1

/-- A `gen` outcome on which narrative generation fails in one of the three
spec-listed ways: an exception, an empty reply, or an unparseable reply. -/
def narrativeFails (gen : Except String String) : Prop :=
  (∃ e, gen = .error e) ∨ gen = .ok "" ∨
    ∃ t, gen = .ok t ∧ parseBullBearResponse t = none

/-- A sample judgment used to instantiate statements. -/
def mkJudgment (s r : String) : SentimentResult :=
  ⟨s, r, .num 1, "title", "src"⟩

/-- The bull-side fallback points: one prefixed, truncated line per
Positive judgment, in input order. -/
def bullPoints (results : List SentimentResult) : List String :=
  (results.filter (fun r => r.sentiment = "Positive")).map
    (fun r => "• " ++ trunc100 r.reasoning ++ "...")

/-- The bear-side fallback points: one prefixed, truncated line per
Negative judgment, in input order. -/
def bearPoints (results : List SentimentResult) : List String :=
  (results.filter (fun r => r.sentiment = "Negative")).map
    (fun r => "• " ++ trunc100 r.reasoning ++ "...")

/-- Six Positive judgments followed by one Negative judgment. -/
def sixPosOneNeg : List SentimentResult :=
  [mkJudgment "Positive" "p1", mkJudgment "Positive" "p2", mkJudgment "Positive" "p3",
   mkJudgment "Positive" "p4", mkJudgment "Positive" "p5", mkJudgment "Positive" "p6",
   mkJudgment "Negative" "n1"]

/-- A syntactically valid narrative reply whose bull list has six entries
and whose bear list is empty. -/
def oversizedNarrativeReply : Except String String :=
  .ok "\x7b\"bull_case\":[\"a\",\"b\",\"c\",\"d\",\"e\",\"f\"],\"bear_case\":[]\x7d"

/-- The report produced from one Positive judgment when the narrative
service returns `oversizedNarrativeReply`. -/
def oversizedNarrativeReport : SentimentReport :=
  generateFinalReport oversizedNarrativeReply [mkJudgment "Positive" "good"] "Acme" "ts"

/-- A classification reply whose confidence field is 1.5. -/
def overConfidentReply : Except String String :=
  .ok "\x7b\"sentiment\":\"Positive\",\"reasoning\":\"x\",\"confidence\":1.5\x7d"

/-- Twenty judgments: 35% Positive, 35% Negative, 30% Neutral. -/
def c3530 : List SentimentResult :=
  List.replicate 7 (mkJudgment "Positive" "p") ++
    List.replicate 7 (mkJudgment "Negative" "n") ++
    List.replicate 6 (mkJudgment "Neutral" "u")

/-- Five judgments: 60% Positive, 40% Negative. -/
def c6040 : List SentimentResult :=
  List.replicate 3 (mkJudgment "Positive" "p") ++
    List.replicate 2 (mkJudgment "Negative" "n")

/-! ## Lemmas about the tally (`Counter`) -/

lemma bump_ne_nil (acc : List (String × Nat)) (s : String) : bump acc s ≠ [] := by
  cases acc with
  | nil => simp [bump]
  | cons p rest =>
    obtain ⟨k, c⟩ := p
    simp only [bump]
    split <;> simp

lemma foldl_bump_ne_nil (l : List String) :
    ∀ acc : List (String × Nat), acc ≠ [] → l.foldl bump acc ≠ [] := by
  induction l with
  | nil => intro acc h; simpa using h
  | cons s t ih =>
    intro acc _
    simpa using ih (bump acc s) (bump_ne_nil acc s)

lemma alookup_bump (acc : List (String × Nat)) (s k : String) :
    alookup k (bump acc s) =
      if k = s then some ((alookup k acc).getD 0 + 1) else alookup k acc := by
  induction acc with
  | nil =>
    by_cases hks : k = s
    · subst hks; simp [bump, alookup]
    · simp [bump, alookup, eq_comm, hks]
  | cons p rest ih =>
    obtain ⟨k', c⟩ := p
    by_cases hk's : k' = s
    · subst hk's
      by_cases hkk' : k' = k
      · subst hkk'
        simp [bump, alookup]
      · simp [bump, alookup, hkk', Ne.symm hkk']
    · by_cases hkk' : k' = k
      · subst hkk'
        simp [bump, alookup, hk's, Ne.symm hk's]
      · simp [bump, alookup, hk's, hkk', ih]

lemma alookup_foldl_bump (l : List String) :
    ∀ (acc : List (String × Nat)) (k : String),
      alookup k (l.foldl bump acc) =
        match alookup k acc with
        | some c => some (c + l.count k)
        | none => if l.count k = 0 then none else some (l.count k) := by
  induction l with
  | nil =>
    intro acc k
    cases h : alookup k acc <;> simp [h]
  | cons s t ih =>
    intro acc k
    rw [List.foldl_cons, ih (bump acc s) k, alookup_bump]
    by_cases hk : k = s <;> cases h : alookup k acc <;>
      simp [hk, h, List.count_cons] <;> omega

lemma tally_lookup (l : List String) (k : String) :
    alookup k (tally l) =
      if l.count k = 0 then none else some (l.count k) := by
  simpa [tally, alookup] using alookup_foldl_bump l [] k

lemma snd_sum_bump (acc : List (String × Nat)) (s : String) :
    ((bump acc s).map Prod.snd).sum = (acc.map Prod.snd).sum + 1 := by
  induction acc with
  | nil => simp [bump]
  | cons p rest ih =>
    obtain ⟨k, c⟩ := p
    simp only [bump]
    split <;> simp [ih] <;> omega

lemma snd_sum_foldl_bump (l : List String) :
    ∀ acc : List (String × Nat),
      ((l.foldl bump acc).map Prod.snd).sum = (acc.map Prod.snd).sum + l.length := by
  induction l with
  | nil => intro acc; simp
  | cons s t ih =>
    intro acc
    rw [List.foldl_cons, ih (bump acc s), snd_sum_bump]
    simp; omega

lemma tally_sum (l : List String) :
    ((tally l).map Prod.snd).sum = l.length := by
  simpa [tally] using snd_sum_foldl_bump l []

/-! ## Lemmas about percentages -/

lemma alookup_percentages (counts : List (String × Nat)) (n : Nat) (k : String) :
    alookup k (sentimentPercentages counts n) =
      (alookup k counts).map (fun c => (c : ℚ) / (n : ℚ) * 100) := by
  induction counts with
  | nil => simp [sentimentPercentages, alookup]
  | cons p rest ih =>
    obtain ⟨k', c⟩ := p
    by_cases hk : k' = k <;> simp [sentimentPercentages, alookup, hk] <;>
      simpa [sentimentPercentages] using ih

lemma percentages_sum (counts : List (String × Nat)) (n : Nat) :
    ((sentimentPercentages counts n).map Prod.snd).sum =
      (((counts.map Prod.snd).sum : ℚ)) / (n : ℚ) * 100 := by
  induction counts with
  | nil => simp [sentimentPercentages]
  | cons p rest ih =>
    obtain ⟨k', c⟩ := p
    simp only [sentimentPercentages, List.map_cons, List.sum_cons] at *
    rw [ih]
    push_cast
    ring

/-! ## Lemmas about the first-maximum (`max` with a key) -/

lemma foldl_max_spec (rest : List (String × ℚ)) :
    ∀ x : String × ℚ,
      (rest.foldl (fun m y => if y.2 > m.2 then y else m) x = x ∨
        rest.foldl (fun m y => if y.2 > m.2 then y else m) x ∈ rest) ∧
      x.2 ≤ (rest.foldl (fun m y => if y.2 > m.2 then y else m) x).2 ∧
      ∀ y ∈ rest, y.2 ≤ (rest.foldl (fun m y => if y.2 > m.2 then y else m) x).2 := by
  induction rest with
  | nil => intro x; simp
  | cons z t ih =>
    intro x
    rw [List.foldl_cons]
    obtain ⟨hmem, hle, hall⟩ := ih (if z.2 > x.2 then z else x)
    by_cases hz : z.2 > x.2
    · rw [if_pos hz] at hmem hle hall
      refine ⟨?_, ?_, ?_⟩
      · rcases hmem with h | h
        · exact Or.inr (by simp [if_pos hz, h])
        · exact Or.inr (by simp [if_pos hz]; right; exact h)
      · rw [if_pos hz]
        exact le_trans (le_of_lt hz) hle
      · intro y hy
        rw [if_pos hz]
        rcases List.mem_cons.mp hy with rfl | hy'
        · exact hle
        · exact hall y hy'
    · rw [if_neg hz] at hmem hle hall
      refine ⟨?_, ?_, ?_⟩
      · rcases hmem with h | h
        · exact Or.inl (by simpa [if_neg hz] using h)
        · exact Or.inr (by simp [if_neg hz]; right; exact h)
      · simpa [if_neg hz] using hle
      · intro y hy
        rw [if_neg hz]
        rcases List.mem_cons.mp hy with rfl | hy'
        · exact le_trans (le_of_not_lt hz) hle
        · exact hall y hy'

lemma firstMax_spec (l : List (String × ℚ)) (m : String × ℚ)
    (h : firstMax l = some m) : m ∈ l ∧ ∀ x ∈ l, x.2 ≤ m.2 := by
  cases l with
  | nil => simp [firstMax] at h
  | cons x rest =>
    simp only [firstMax, Option.some_inj] at h
    obtain ⟨hmem, hle, hall⟩ := foldl_max_spec rest x
    subst h
    refine ⟨?_, ?_⟩
    · rcases hmem with h | h
      · simp [h]
      · exact List.mem_cons_of_mem x h
    · intro y hy
      rcases List.mem_cons.mp hy with rfl | hy'
      · exact hle
      · exact hall y hy'

/-! ## Unfolding lemmas for the synthesizer -/

lemma generateFinalReport_cons (gen : Except String String) (a : SentimentResult)
    (rs : List SentimentResult) (company ts : String) :
    ∃ m, firstMax (sentimentPercentages (tally ((a :: rs).map SentimentResult.sentiment))
        (a :: rs).length) = some m ∧
      generateFinalReport gen (a :: rs) company ts =
        ⟨if m.2 < 40 then "Neutral" else m.1,
         tally ((a :: rs).map SentimentResult.sentiment),
         sentimentPercentages (tally ((a :: rs).map SentimentResult.sentiment)) (a :: rs).length,
         (generateBullBearCases gen (a :: rs) company).1,
         (generateBullBearCases gen (a :: rs) company).2,
         (a :: rs).length, (a :: rs).length, ts⟩ := by
  have ht : tally ((a :: rs).map SentimentResult.sentiment) ≠ [] := by
    simp only [List.map_cons, tally, List.foldl_cons]
    exact foldl_bump_ne_nil _ (bump [] a.sentiment) (bump_ne_nil [] a.sentiment)
  obtain ⟨p, tail, hp⟩ := List.exists_cons_of_ne_nil ht
  have hfm : ∃ m, firstMax (sentimentPercentages
      (tally ((a :: rs).map SentimentResult.sentiment)) (a :: rs).length) = some m := by
    rw [hp]
    exact ⟨_, rfl⟩
  obtain ⟨m, hm⟩ := hfm
  refine ⟨m, hm, ?_⟩
  simp only [generateFinalReport, determineOverallSentiment, hm, Option.map_some']

lemma createDefault_bounds (results : List SentimentResult) :
    ∃ b c : List String,
      createDefaultBullBearCases results = (strList b, strList c) ∧
      1 ≤ b.length ∧ b.length ≤ 5 ∧ 1 ≤ c.length ∧ c.length ≤ 5 := by
  refine ⟨_, _, rfl, ?_, ?_, ?_, ?_⟩ <;>
    · simp only [List.length_take]
      split
      · simp
      · rename_i h
        have h1 := List.length_pos.mpr h
        omega

lemma caseLen_strList (l : List String) : caseLen (strList l) = some l.length := by
  simp [caseLen, strList]

lemma narrativeFails_default (gen : Except String String)
    (results : List SentimentResult) (company : String) (h : narrativeFails gen) :
    generateBullBearCases gen results company = createDefaultBullBearCases results := by
  rcases h with ⟨e, rfl⟩ | rfl | ⟨t, rfl, ht⟩
  · rfl
  · rfl
  · by_cases ht0 : t = "" <;> simp [generateBullBearCases, ht0, ht]

lemma createDefault_points (results : List SentimentResult) :
    createDefaultBullBearCases results =
      (strList ((if bullPoints results = []
          then ["• Positive market sentiment detected in recent news"]
          else bullPoints results).take 5),
       strList ((if bearPoints results = []
          then ["• Some concerns identified in recent coverage"]
          else bearPoints results).take 5)) := rfl

lemma validate_some_iff (d : Json) (p : ParsedSentiment) :
    validateSentimentData d = some p ↔
      ∃ fields s r, d = .obj fields ∧
        alookup "sentiment" fields = some (.str s) ∧
        alookup "reasoning" fields = some (.str r) ∧
        (pyTitle (pyStrip s) = "Positive" ∨ pyTitle (pyStrip s) = "Negative" ∨
          pyTitle (pyStrip s) = "Neutral") ∧
        p = ⟨pyTitle (pyStrip s), pyStrip r,
              (alookup "confidence" fields).getD (.num (4/5))⟩ := by
  constructor
  · intro h
    cases d with
    | obj fields =>
      simp only [validateSentimentData] at h
      split at h
      · rename_i sv rv hs hr
        split at h
        · rename_i s r
          split at h
          · rename_i hlab
            exact ⟨fields, s, r, rfl, hs, hr, hlab, (Option.some_inj.mp h).symm⟩
          · exact absurd h (by simp)
        · exact absurd h (by simp)
      · exact absurd h (by simp)
    | null => exact absurd h (by simp [validateSentimentData])
    | bool b => exact absurd h (by simp [validateSentimentData])
    | num q => exact absurd h (by simp [validateSentimentData])
    | str s => exact absurd h (by simp [validateSentimentData])
    | arr l => exact absurd h (by simp [validateSentimentData])
  · rintro ⟨fields, s, r, rfl, hs, hr, hlab, rfl⟩
    simp only [validateSentimentData, hs, hr]
    rw [if_pos hlab]

lemma parse_some_iff (t : String) (p : ParsedSentiment) :
    parseSentimentResponse t = some p ↔
      ∃ block d, extractJsonBlock (pyStrip t) = some block ∧
        jsonParse block = some d ∧ validateSentimentData d = some p := by
  simp only [parseSentimentResponse, Option.bind_eq_some]
  constructor
  · rintro ⟨block, hb, d, hd, hv⟩
    exact ⟨block, d, hb, hd, hv⟩
  · rintro ⟨block, d, hb, hd, hv⟩
    exact ⟨block, hb, d, hd, hv⟩

lemma extractJsonBlock_empty : extractJsonBlock (pyStrip "") = none := rfl

/-! ## Claim theorems -/

/-- C3: for every company name (and any narrative-service behaviour),
`synthesize` applied to an empty judgment list returns the canonical empty
report: Neutral overall sentiment, breakdown `Neutral ↦ 0`, percentages
`Neutral ↦ 100`, both case lists a single fixed "no data" placeholder, and
zero total/analyzed article counts, with the timestamp a parameter. -/
theorem spec_empty_report (gen : Except String String) (company ts : String) :
    generateFinalReport gen [] company ts =
      ⟨"Neutral", [("Neutral", 0)], [("Neutral", 100)],
        strList ["• No recent news available for analysis"],
        strList ["• No recent news available for analysis"],
        0, 0, ts⟩ := rfl

/-- C10: every report returned by `synthesize` has
`total_articles = analyzed_articles`, and both equal the length of the
judgment list (hence 0 exactly for the empty report): the reported total
never counts articles dropped before synthesis. -/
theorem spec_total_equals_analyzed (gen : Except String String)
    (results : List SentimentResult) (company ts : String) :
    (generateFinalReport gen results company ts).total_articles =
      (generateFinalReport gen results company ts).analyzed_articles ∧
    (generateFinalReport gen results company ts).analyzed_articles = results.length := by
  cases results with
  | nil => exact ⟨rfl, rfl⟩
  | cons a rs =>
    obtain ⟨m, _, hr⟩ := generateFinalReport_cons gen a rs company ts
    rw [hr]
    exact ⟨rfl, rfl⟩

/-- C9: for two consecutive rate-limited calls through the same limiter
state, the second call starts at least `min_interval` after the first
call's start; when less than the interval has elapsed the caller waits
exactly the remaining time (the default interval is 5 time-units). -/
theorem spec_rate_limit (minI last now₁ now₂ : ℚ) (h0 : 0 ≤ minI)
    (hmono : (rateLimit minI last now₁).2 ≤ now₂) :
    minRequestInterval = 5 ∧
    (rateLimit minI last now₁).1 + minI ≤
      (rateLimit minI (rateLimit minI last now₁).2 now₂).1 ∧
    (now₂ - (rateLimit minI last now₁).2 < minI →
      (rateLimit minI (rateLimit minI last now₁).2 now₂).1 =
        (rateLimit minI last now₁).1 + minI) := by
  have same : (rateLimit minI last now₁).1 = (rateLimit minI last now₁).2 := by
    simp only [rateLimit]
    split_ifs <;> rfl
  rw [same]
  generalize (rateLimit minI last now₁).2 = st at hmono ⊢
  refine ⟨rfl, ?_, ?_⟩
  · simp only [rateLimit]
    split_ifs with h
    · dsimp only
      linarith
    · dsimp only
      linarith
  · intro h'
    simp only [rateLimit, if_pos h']
    ring

/-- Witness for C9 at concrete times: calls at times 2 and 6 with the
default interval and initial state 0. -/
theorem spec_rate_limit_witness :
    minRequestInterval = 5 ∧
    (rateLimit 5 0 2).1 + 5 ≤ (rateLimit 5 (rateLimit 5 0 2).2 6).1 ∧
    (6 - (rateLimit 5 0 2).2 < 5 →
      (rateLimit 5 (rateLimit 5 0 2).2 6).1 = (rateLimit 5 0 2).1 + 5) :=
  spec_rate_limit 5 0 2 6 (by norm_num) (by norm_num [rateLimit])

/-- C5: whenever the narrative call fails (exception, empty reply, or
unparseable reply), the cases come from the deterministic fallback: the
judgment list is walked in original order, each Positive judgment's
reasoning (truncated to 100 characters, visually prefixed) goes to the
bull list and each Negative one to the bear list, empty lists get a single
generic placeholder, and both lists are capped at 5; in particular six
Positive and one Negative judgments yield 5 bull and 1 bear entries. -/
theorem spec_narrative_fallback (gen : Except String String)
    (results : List SentimentResult) (company : String) (h : narrativeFails gen) :
    generateBullBearCases gen results company =
      (strList ((if bullPoints results = []
          then ["• Positive market sentiment detected in recent news"]
          else bullPoints results).take 5),
       strList ((if bearPoints results = []
          then ["• Some concerns identified in recent coverage"]
          else bearPoints results).take 5)) ∧
    caseLen (generateBullBearCases (.error "err") sixPosOneNeg company).1 = some 5 ∧
    caseLen (generateBullBearCases (.error "err") sixPosOneNeg company).2 = some 1 := by
  refine ⟨?_, rfl, rfl⟩
  rw [narrativeFails_default gen results company h]
  exact createDefault_points results

/-- Witness for C5 at a failing call and the six-Positive/one-Negative
judgment list. -/
theorem spec_narrative_fallback_witness :
    generateBullBearCases (.error "boom") sixPosOneNeg "Acme" =
      (strList ((if bullPoints sixPosOneNeg = []
          then ["• Positive market sentiment detected in recent news"]
          else bullPoints sixPosOneNeg).take 5),
       strList ((if bearPoints sixPosOneNeg = []
          then ["• Some concerns identified in recent coverage"]
          else bearPoints sixPosOneNeg).take 5)) ∧
    caseLen (generateBullBearCases (.error "err") sixPosOneNeg "Acme").1 = some 5 ∧
    caseLen (generateBullBearCases (.error "err") sixPosOneNeg "Acme").2 = some 1 :=
  spec_narrative_fallback (.error "boom") sixPosOneNeg "Acme" (Or.inl ⟨"boom", rfl⟩)

/-- C6 counterexample: when the narrative service reply parses to a six
entry bull list and an empty bear list, `synthesize` stores both verbatim,
so a returned report violates the claimed 1–5 length bounds. -/
theorem spec_case_lists_counterexample :
    oversizedNarrativeReport.bull_case = strList ["a", "b", "c", "d", "e", "f"] ∧
    oversizedNarrativeReport.bear_case = strList [] ∧
    ¬ (caseLenBounds oversizedNarrativeReport.bull_case ∧
        caseLenBounds oversizedNarrativeReport.bear_case) := by
  have hb : oversizedNarrativeReport.bull_case = strList ["a", "b", "c", "d", "e", "f"] := by
    with_unfolding_all rfl
  have hc : oversizedNarrativeReport.bear_case = strList [] := by
    with_unfolding_all rfl
  refine ⟨hb, hc, ?_⟩
  rintro ⟨⟨n, hn, -, h5⟩, -⟩
  rw [hb, caseLen_strList] at hn
  simp at hn
  omega

/-- C6 (amended): whenever the narrative comes from the deterministic
fallback — in particular whenever the narrative call raises — or the
judgment list is empty, `bull_case` and `bear_case` each have between 1
and 5 entries; a successfully parsed service reply is instead used
verbatim, with no length guarantee. -/
theorem spec_case_lists_fallback_bounds (gen : Except String String)
    (results : List SentimentResult) (company ts : String)
    (h : narrativeFails gen ∨ results = []) :
    caseLenBounds (generateFinalReport gen results company ts).bull_case ∧
    caseLenBounds (generateFinalReport gen results company ts).bear_case := by
  cases results with
  | nil => exact ⟨⟨1, rfl, by omega, by omega⟩, ⟨1, rfl, by omega, by omega⟩⟩
  | cons a rs =>
    have hfail : narrativeFails gen := by
      rcases h with h | h
      · exact h
      · exact absurd h (by simp)
    obtain ⟨m, -, hr⟩ := generateFinalReport_cons gen a rs company ts
    rw [hr]
    obtain ⟨b, c, hbc, hb1, hb5, hc1, hc5⟩ := createDefault_bounds (a :: rs)
    constructor
    · show caseLenBounds (generateBullBearCases gen (a :: rs) company).1
      rw [narrativeFails_default gen (a :: rs) company hfail, hbc]
      exact ⟨b.length, caseLen_strList b, hb1, hb5⟩
    · show caseLenBounds (generateBullBearCases gen (a :: rs) company).2
      rw [narrativeFails_default gen (a :: rs) company hfail, hbc]
      exact ⟨c.length, caseLen_strList c, hc1, hc5⟩

/-- Witness for the amended C6 at a raising narrative call. -/
theorem spec_case_lists_fallback_bounds_witness :
    caseLenBounds (generateFinalReport (.error "boom")
        [mkJudgment "Positive" "good"] "Acme" "ts").bull_case ∧
    caseLenBounds (generateFinalReport (.error "boom")
        [mkJudgment "Positive" "good"] "Acme" "ts").bear_case :=
  spec_case_lists_fallback_bounds (.error "boom") [mkJudgment "Positive" "good"]
    "Acme" "ts" (Or.inl (Or.inl ⟨"boom", rfl⟩))

/-- C7 counterexample: the code never validates the confidence range, so a
service reply carrying `confidence = 1.5` produces a judgment whose
confidence lies outside `[0, 1]`. -/
theorem spec_confidence_counterexample :
    analyzeArticleSentiment overConfidentReply ⟨"t", "d", "c", "s"⟩ =
      some ⟨"Positive", "x", .num (3 / 2), "t", "s"⟩ ∧
    ¬ confidenceInUnit (Json.num (3 / 2)) := by
  refine ⟨by with_unfolding_all rfl, ?_⟩
  rintro ⟨q, hq, -, hq1⟩
  have hq' : (3 / 2 : ℚ) = q := by injection hq
  rw [← hq'] at hq1
  norm_num at hq1

/-- C7 (amended): every judgment produced by `classify` carries exactly
the confidence value of the decoded reply, defaulting to 0.8 when the
field is omitted; the range `[0, 1]` is not enforced. -/
theorem spec_confidence_amended (gen : Except String String) (article : Article)
    (jdg : SentimentResult) (h : analyzeArticleSentiment gen article = some jdg) :
    ∃ reply block j, gen = .ok reply ∧
      extractJsonBlock (pyStrip reply) = some block ∧
      jsonParse block = some j ∧
      jdg.confidence = (j.get? "confidence").getD (.num (4 / 5)) := by
  cases gen with
  | error e => simp [analyzeArticleSentiment] at h
  | ok reply =>
    by_cases h0 : reply = ""
    · rw [h0] at h
      simp [analyzeArticleSentiment] at h
    · simp only [analyzeArticleSentiment, if_neg h0, Option.map_eq_some'] at h
      obtain ⟨d, hp, hj⟩ := h
      obtain ⟨block, data, hx, hjp, hv⟩ := (parse_some_iff reply d).mp hp
      obtain ⟨fields, s, r, rfl, -, -, -, hd⟩ := (validate_some_iff data d).mp hv
      refine ⟨reply, block, .obj fields, rfl, hx, hjp, ?_⟩
      rw [← hj, hd]
      rfl

/-- Witness for the amended C7: a reply omitting the confidence field
yields the default 0.8. -/
theorem spec_confidence_amended_witness :
    ∃ reply block j,
      (Except.ok "\x7b\"sentiment\":\"Neutral\",\"reasoning\":\"y\"\x7d" :
          Except String String) = .ok reply ∧
      extractJsonBlock (pyStrip reply) = some block ∧
      jsonParse block = some j ∧
      (SentimentResult.mk "Neutral" "y" (.num (4 / 5)) "t" "s").confidence =
        (j.get? "confidence").getD (.num (4 / 5)) :=
  spec_confidence_amended
    (.ok "\x7b\"sentiment\":\"Neutral\",\"reasoning\":\"y\"\x7d")
    ⟨"t", "d", "c", "s"⟩ ⟨"Neutral", "y", .num (4 / 5), "t", "s"⟩
    (by with_unfolding_all rfl)

/-- C8: neither operation propagates an exception: a raising
classification call makes the article's result absent, and a raising
narrative call degrades the (still returned) report to the deterministic
fallback cases, while the empty-input path of `synthesize` returns the
canonical empty report. -/
theorem spec_no_exception_policy :
    (∀ (e : String) (article : Article),
        analyzeArticleSentiment (.error e) article = none) ∧
    (∀ (e : String) (results : List SentimentResult) (company ts : String),
        results ≠ [] →
          (generateFinalReport (.error e) results company ts).bull_case =
            (createDefaultBullBearCases results).1 ∧
          (generateFinalReport (.error e) results company ts).bear_case =
            (createDefaultBullBearCases results).2 ∧
          (generateFinalReport (.error e) results company ts).analyzed_articles =
            results.length) ∧
    (∀ (e : String) (company ts : String),
        generateFinalReport (.error e) [] company ts = createEmptyReport ts) := by
  refine ⟨fun e article => rfl, ?_, fun e company ts => rfl⟩
  intro e results company ts hne
  cases results with
  | nil => exact absurd rfl hne
  | cons a rs =>
    obtain ⟨m, -, hr⟩ := generateFinalReport_cons (.error e) a rs company ts
    rw [hr]
    have hd := narrativeFails_default (.error e) (a :: rs) company (Or.inl ⟨e, rfl⟩)
    refine ⟨?_, ?_, rfl⟩
    · show (generateBullBearCases (.error e) (a :: rs) company).1 = _
      rw [hd]
    · show (generateBullBearCases (.error e) (a :: rs) company).2 = _
      rw [hd]

/-- Witness for C8 at concrete inputs. -/
theorem spec_no_exception_policy_witness :
    analyzeArticleSentiment (.error "boom") ⟨"t", "d", "c", "s"⟩ = none ∧
    (generateFinalReport (.error "boom") [mkJudgment "Positive" "good"]
        "Acme" "ts").bull_case =
      (createDefaultBullBearCases [mkJudgment "Positive" "good"]).1 ∧
    generateFinalReport (.error "boom") [] "Acme" "ts" = createEmptyReport "ts" :=
  ⟨spec_no_exception_policy.1 "boom" ⟨"t", "d", "c", "s"⟩,
   (spec_no_exception_policy.2.1 "boom" [mkJudgment "Positive" "good"] "Acme" "ts"
      (by simp)).1,
   spec_no_exception_policy.2.2 "boom" "Acme" "ts"⟩

/-- C1: for every non-empty judgment list, `synthesize` sets
`overall_sentiment` to the label attaining the highest percentage, except
that a maximum strictly below 40 is overridden to Neutral; in particular
35/35/30 yields Neutral and 60/40 yields Positive. -/
theorem spec_overall_sentiment :
    (∀ (gen : Except String String) (results : List SentimentResult) (company ts : String),
        results ≠ [] →
          ∃ m, firstMax (sentimentPercentages
                (tally (results.map SentimentResult.sentiment)) results.length) = some m ∧
            m ∈ sentimentPercentages (tally (results.map SentimentResult.sentiment))
                results.length ∧
            (∀ x ∈ sentimentPercentages (tally (results.map SentimentResult.sentiment))
                results.length, x.2 ≤ m.2) ∧
            (generateFinalReport gen results company ts).overall_sentiment =
              (if m.2 < 40 then "Neutral" else m.1)) ∧
    (generateFinalReport (.error "e") c3530 "Acme" "ts").overall_sentiment = "Neutral" ∧
    (generateFinalReport (.error "e") c6040 "Acme" "ts").overall_sentiment = "Positive" := by
  refine ⟨?_, by with_unfolding_all rfl, by with_unfolding_all rfl⟩
  intro gen results company ts hne
  cases results with
  | nil => exact absurd rfl hne
  | cons a rs =>
    obtain ⟨m, hm, hr⟩ := generateFinalReport_cons gen a rs company ts
    obtain ⟨hmem, hall⟩ := firstMax_spec _ m hm
    exact ⟨m, hm, hmem, hall, by rw [hr]⟩

/-- Witness for C1 on the 60/40 judgment list. -/
theorem spec_overall_sentiment_witness :
    ∃ m, firstMax (sentimentPercentages
          (tally (c6040.map SentimentResult.sentiment)) c6040.length) = some m ∧
      m ∈ sentimentPercentages (tally (c6040.map SentimentResult.sentiment)) c6040.length ∧
      (∀ x ∈ sentimentPercentages (tally (c6040.map SentimentResult.sentiment))
          c6040.length, x.2 ≤ m.2) ∧
      (generateFinalReport (.error "e") c6040 "Acme" "ts").overall_sentiment =
        (if m.2 < 40 then "Neutral" else m.1) :=
  spec_overall_sentiment.1 (.error "e") c6040 "Acme" "ts" (by simp [c6040])

/-- C4: for every non-empty judgment list, the report's breakdown has
exactly the labels appearing among the judgments with their occurrence
counts, each percentage is `100 · count / analyzed_articles`, the counts
sum to `analyzed_articles`, and the percentages sum to exactly 100. -/
theorem spec_breakdown_invariants (gen : Except String String)
    (results : List SentimentResult) (company ts : String) (h : results ≠ []) :
    (∀ k, alookup k (generateFinalReport gen results company ts).sentiment_breakdown =
        if (results.map SentimentResult.sentiment).count k = 0 then none
        else some ((results.map SentimentResult.sentiment).count k)) ∧
    (∀ k c, alookup k (generateFinalReport gen results company ts).sentiment_breakdown =
          some c →
        alookup k (generateFinalReport gen results company ts).sentiment_percentages =
          some ((c : ℚ) / (results.length : ℚ) * 100)) ∧
    ((generateFinalReport gen results company ts).sentiment_breakdown.map Prod.snd).sum =
      (generateFinalReport gen results company ts).analyzed_articles ∧
    (generateFinalReport gen results company ts).analyzed_articles = results.length ∧
    ((generateFinalReport gen results company ts).sentiment_percentages.map Prod.snd).sum
      = 100 := by
  cases results with
  | nil => exact absurd rfl h
  | cons a rs =>
    obtain ⟨m, -, hr⟩ := generateFinalReport_cons gen a rs company ts
    rw [hr]
    refine ⟨?_, ?_, ?_, rfl, ?_⟩
    · intro k
      exact tally_lookup _ k
    · intro k c hkc
      replace hkc : alookup k (tally ((a :: rs).map SentimentResult.sentiment)) = some c := hkc
      show alookup k (sentimentPercentages
          (tally ((a :: rs).map SentimentResult.sentiment)) (a :: rs).length) = _
      rw [alookup_percentages, hkc]
      rfl
    · show ((tally ((a :: rs).map SentimentResult.sentiment)).map Prod.snd).sum =
        (a :: rs).length
      rw [tally_sum, List.length_map]
    · show ((sentimentPercentages (tally ((a :: rs).map SentimentResult.sentiment))
          (a :: rs).length).map Prod.snd).sum = 100
      rw [percentages_sum, tally_sum, List.length_map]
      have hn : ((a :: rs).length : ℚ) ≠ 0 :=
        Nat.cast_ne_zero.mpr (by simp)
      rw [div_self hn, one_mul]

/-- Witness for C4 on a single Positive judgment. -/
theorem spec_breakdown_invariants_witness :
    (∀ k, alookup k (generateFinalReport (.error "e") [mkJudgment "Positive" "p"]
          "Acme" "ts").sentiment_breakdown =
        if (([mkJudgment "Positive" "p"] :
              List SentimentResult).map SentimentResult.sentiment).count k = 0 then none
        else some ((([mkJudgment "Positive" "p"] :
              List SentimentResult).map SentimentResult.sentiment).count k)) ∧
    (∀ k c, alookup k (generateFinalReport (.error "e") [mkJudgment "Positive" "p"]
            "Acme" "ts").sentiment_breakdown = some c →
        alookup k (generateFinalReport (.error "e") [mkJudgment "Positive" "p"]
            "Acme" "ts").sentiment_percentages =
          some ((c : ℚ) / (([mkJudgment "Positive" "p"] :
              List SentimentResult).length : ℚ) * 100)) ∧
    ((generateFinalReport (.error "e") [mkJudgment "Positive" "p"]
        "Acme" "ts").sentiment_breakdown.map Prod.snd).sum =
      (generateFinalReport (.error "e") [mkJudgment "Positive" "p"]
        "Acme" "ts").analyzed_articles ∧
    (generateFinalReport (.error "e") [mkJudgment "Positive" "p"]
        "Acme" "ts").analyzed_articles =
      ([mkJudgment "Positive" "p"] : List SentimentResult).length ∧
    ((generateFinalReport (.error "e") [mkJudgment "Positive" "p"]
        "Acme" "ts").sentiment_percentages.map Prod.snd).sum = 100 :=
  spec_breakdown_invariants (.error "e") [mkJudgment "Positive" "p"] "Acme" "ts"
    (by simp)

/-- C2: `classify` yields a judgment exactly when the reply contains a
fenced json block (looked for first) or, failing that, the first-brace to
last-brace substring, such that the extracted substring decodes to an
object with string `sentiment` and `reasoning` fields whose title-cased
sentiment is Positive, Negative, or Neutral; the judgment then carries the
normalized fields. Any failure yields `none` rather than an exception. -/
theorem spec_classify_parse_iff (gen : Except String String) (article : Article)
    (jdg : SentimentResult) :
    analyzeArticleSentiment gen article = some jdg ↔
      ∃ reply block fields s r, gen = .ok reply ∧
        extractJsonBlock (pyStrip reply) = some block ∧
        jsonParse block = some (.obj fields) ∧
        alookup "sentiment" fields = some (.str s) ∧
        alookup "reasoning" fields = some (.str r) ∧
        (pyTitle (pyStrip s) = "Positive" ∨ pyTitle (pyStrip s) = "Negative" ∨
          pyTitle (pyStrip s) = "Neutral") ∧
        jdg = ⟨pyTitle (pyStrip s), pyStrip r,
               (alookup "confidence" fields).getD (.num (4 / 5)),
               article.title, article.source⟩ := by
  constructor
  · intro h
    cases gen with
    | error e => simp [analyzeArticleSentiment] at h
    | ok reply =>
      by_cases h0 : reply = ""
      · rw [h0] at h
        simp [analyzeArticleSentiment] at h
      · simp only [analyzeArticleSentiment, if_neg h0, Option.map_eq_some'] at h
        obtain ⟨d, hp, hj⟩ := h
        obtain ⟨block, data, hx, hjp, hv⟩ := (parse_some_iff reply d).mp hp
        obtain ⟨fields, s, r, rfl, hs, hrr, hlab, hd⟩ := (validate_some_iff data d).mp hv
        refine ⟨reply, block, fields, s, r, rfl, hx, hjp, hs, hrr, hlab, ?_⟩
        rw [← hj, hd]
  · rintro ⟨reply, block, fields, s, r, rfl, hx, hjp, hs, hrr, hlab, rfl⟩
    have h0 : reply ≠ "" := by
      intro h0
      rw [h0, extractJsonBlock_empty] at hx
      exact Option.noConfusion hx
    simp only [analyzeArticleSentiment, if_neg h0]
    have hp : parseSentimentResponse reply =
        some ⟨pyTitle (pyStrip s), pyStrip r,
          (alookup "confidence" fields).getD (.num (4 / 5))⟩ := by
      rw [parse_some_iff]
      exact ⟨block, .obj fields, hx, hjp,
        (validate_some_iff _ _).mpr ⟨fields, s, r, rfl, hs, hrr, hlab, rfl⟩⟩
    rw [hp]
    rfl

end FinAgent
